import Mathlib

/-!
Verification development for the countle-solver repository.

The Python sources are shallowly embedded as Lean definitions:
  * `game/types.py`   -> `MoveType`, `Operation`
  * `game/move.py`    -> `GameMove`
  * `game/state.py`   -> `GameState`
  * `game/engine.py`  -> `CountleEngine` and its methods
  * `game/game.py`    -> `CountleGame`
  * `solver/bfs.py`   -> `bfs_solve` and helpers
  * `solver/astar.py` -> `astarProcessMove` and helpers

Conventions:
  * Python ints are `Int`; Python floor division `//` is `Int.fdiv` and
    `%` is `Int.fmod` (both agree with Python on negative operands).
  * Python code that can raise an uncaught exception is embedded in
    `Except String`, the error string recording the exception.
  * Python `random.Random` is modelled by `PyRandom`, an explicit
    deterministic generator threaded through the state; only determinism
    of the stream (same seed, same draws) is relied on by any theorem.
-/

/-- Python `list.index(x)`: position of the first occurrence of `x`,
`none` standing for the `ValueError` raised when `x` is absent. -/
def pyIndex : List Int → Int → Option Nat
  | [], _ => none
  | y :: ys, x => if y = x then some 0 else (pyIndex ys x).map (· + 1)

/-- Python `list.remove(x)`: drop the first occurrence of `x`; the error
case models the `ValueError` raised when `x` is absent. -/
def pyRemove (l : List Int) (x : Int) : Except String (List Int) :=
  if x ∈ l then .ok (l.erase x) else .error "ValueError: list.remove(x): x not in list"

/-- Python `sorted` on a list of ints (ascending insertion sort). -/
def insertSorted (x : Int) : List Int → List Int
  | [] => [x]
  | y :: ys => if x ≤ y then x :: y :: ys else y :: insertSorted x ys

/-- Python `sorted(l)` for `l : List Int`. -/
def pySorted (l : List Int) : List Int := l.foldr insertSorted []

/-- Python `max(l)` on a nonempty list (`0` on the unreachable empty case). -/
def pyMax : List Int → Int
  | [] => 0
  | x :: xs => xs.foldl max x

/-- Lookup in a Python dict modelled as an association list in insertion
order (`d.get(k)` / `k in d`). -/
def assocLookup {α : Type} (m : List (Int × α)) (k : Int) : Option α :=
  (m.find? (fun p => p.1 == k)).map (·.2)

/-- Python dict item assignment `d[k] = v` when `k` is already present:
the entry keeps its position. -/
def assocSet {α : Type} (m : List (Int × α)) (k : Int) (v : α) : List (Int × α) :=
  m.map (fun p => if p.1 == k then (p.1, v) else p)

/-- Python dict item assignment `d[k] = v`: update in place if present,
else append (dicts preserve insertion order). -/
def dictInsert {α : Type} (m : List (Int × α)) (k : Int) (v : α) : List (Int × α) :=
  if (assocLookup m k).isSome then assocSet m k v else m ++ [(k, v)]

/-- First-occurrence deduplication; models the key set of a Python `set`
built from a list. CPython enumerates a set in hash-table order; we use
first-insertion order, which is equally deterministic, and no claim
depends on the particular order. -/
def dedupFirst (l : List Int) : List Int :=
  l.foldl (fun acc x => if x ∈ acc then acc else acc ++ [x]) []

/-- Deterministic model of Python `random.Random` (a seeded Mersenne
Twister in CPython). Only two facts about the stdlib generator are used
by any claim: it is a pure function of its seed, and drawing advances an
internal state. Both hold of this explicit linear-congruential model. -/
structure PyRandom where
  state : Nat
deriving DecidableEq, Repr

/-- `random.Random(seed)`. -/
def PyRandom.ofSeed (seed : Nat) : PyRandom := ⟨seed % (2 ^ 64)⟩

/-- Advance the generator and produce a raw draw. -/
def PyRandom.next (r : PyRandom) : Nat × PyRandom :=
  let s := (6364136223846793005 * r.state + 1442695040888963407) % (2 ^ 64)
  (s, ⟨s⟩)

/-- `rng.randint(a, b)`: uniform on the inclusive range `[a, b]`. -/
def PyRandom.randint (r : PyRandom) (a b : Int) : Int × PyRandom :=
  let (v, r') := r.next
  (a + (v % (b - a + 1).toNat : Nat), r')

/-- `rng.choice(l)`; the error models the `IndexError` raised on an
empty sequence. -/
def PyRandom.choice {α : Type} (r : PyRandom) (l : List α) : Except String (α × PyRandom) :=
  if h : l.length = 0 then .error "IndexError: Cannot choose from empty sequence"
  else
    let (v, r') := r.next
    .ok (l.get ⟨v % l.length, Nat.mod_lt v (Nat.pos_of_ne_zero h)⟩, r')

/-- game/types.py `MoveType`. -/
inductive MoveType where
  | operation
  | rollback
deriving DecidableEq, Repr

/-- game/types.py `Operation`: the four arithmetic operations, in
enumeration order ADD, SUBTRACT, MULTIPLY, DIVIDE. -/
inductive Operation where
  | add
  | subtract
  | multiply
  | divide
deriving DecidableEq, Repr

/-- `Operation.symbol`. -/
def Operation.symbol : Operation → String
  | .add => "+"
  | .subtract => "-"
  | .multiply => "*"
  | .divide => "/"

/-- `Operation.apply(a, b)`: `a + b`; `a - b` if `a >= b` else None;
`a * b`; `a // b` if `b != 0 and a % b == 0` else None. Python `//` and
`%` are floor division and floor modulus, i.e. `Int.fdiv` / `Int.fmod`. -/
def Operation.apply : Operation → Int → Int → Option Int
  | .add, a, b => some (a + b)
  | .subtract, a, b => if a ≥ b then some (a - b) else none
  | .multiply, a, b => some (a * b)
  | .divide, a, b => if b ≠ 0 ∧ a.fmod b = 0 then some (a.fdiv b) else none

/-- Iteration order of `for op in Operation` (enum definition order). -/
def allOperations : List Operation := [.add, .subtract, .multiply, .divide]

/-- `Operation.from_symbol`: first enum member whose symbol matches. -/
def Operation.from_symbol (symbol : String) : Option Operation :=
  allOperations.find? (fun op => op.symbol == symbol)

/-- game/move.py `GameMove`. The Python fields `op1`, `op2`, `operation`
default to `None`; `none` models `None`. For operation moves `op1`/`op2`
are the operand values; for rollback moves `op1` is the step index. -/
structure GameMove where
  move_type : MoveType
  op1 : Option Int
  op2 : Option Int
  operation : Option Operation
deriving DecidableEq, Repr

/-- Python `str(x)` for an `Optional[int]` field (`None` prints as
"None"). -/
def optIntStr : Option Int → String
  | some v => toString v
  | none => "None"

/-- `GameMove.__str__`. -/
def GameMove.str (m : GameMove) : String :=
  match m.move_type with
  | .operation =>
      let opSym := match m.operation with
        | some op => op.symbol
        | none => "None"
      optIntStr m.op1 ++ " " ++ opSym ++ " " ++ optIntStr m.op2
  | .rollback => "Rollback step " ++ optIntStr m.op1

/-- `move.operation.apply(move.op1, move.op2)` for an operation move. -/
def GameMove.applyResult (m : GameMove) : Option Int :=
  match m.op1, m.op2, m.operation with
  | some a, some b, some op => op.apply a b
  | _, _, _ => none

/-- game/state.py `GameState`. The `move_history` field of the Python
dataclass is omitted: it is written with heterogeneous payloads (strings
in the engine, number lists in the solvers) and is never read by any
code path a claim depends on. -/
structure GameState where
  numbers : List Int
  target : Int
  move_description : Option String
deriving DecidableEq, Repr

/-- game/engine.py `CountleEngine` field state. `internal_state` and
`history` are unset in Python until `generate_level` / `load_state` /
`reset_history` run; a fresh engine here carries the empty placeholders.
The `REWARDS` dict entries are the `REWARDS_*` definitions below. -/
structure CountleEngine where
  n : Nat
  min_moves : Nat
  max_number : Int
  total_reward : Int
  won : Bool
  move_count : Nat
  seed : Nat
  rng : PyRandom
  internal_state : GameState
  history : List GameState
deriving DecidableEq, Repr

/-- `REWARDS['invalid']`. -/
def REWARDS_invalid : Int := -1

/-- `REWARDS['step']`. -/
def REWARDS_step : Int := -1

/-- `REWARDS['success'] = self.n`. -/
def REWARDS_success (e : CountleEngine) : Int := e.n

/-- `REWARDS['terminate']`. -/
def REWARDS_terminate : Int := 0

/-- `CountleEngine.__init__(num_numbers, min_moves, max_number, seed)`.
The constructor asserts `num_numbers >= 2`, `min_moves >= 0`,
`max_number >= 1`, `min_moves <= num_numbers - 1`; claims only exercise
parameter combinations satisfying them. -/
def CountleEngine.init (num_numbers min_moves : Nat) (max_number : Int) (seed : Nat) :
    CountleEngine :=
  { n := num_numbers
    min_moves := min_moves
    max_number := max_number
    total_reward := 0
    won := false
    move_count := 0
    seed := seed
    rng := PyRandom.ofSeed seed
    internal_state := { numbers := [], target := 0, move_description := none }
    history := [] }

/-- `CountleEngine.current_numbers`. -/
def CountleEngine.current_numbers (e : CountleEngine) : List Int :=
  e.internal_state.numbers

/-- `CountleEngine.target`. -/
def CountleEngine.target (e : CountleEngine) : Int :=
  e.internal_state.target

/-- `CountleEngine.is_terminal`: `self.won or len(self.current_numbers) == 1`. -/
def CountleEngine.is_terminal (e : CountleEngine) : Bool :=
  e.won || e.current_numbers.length == 1

/-- The operation-move part of `CountleEngine.get_valid_moves`: all
ordered pairs `(i, j)` with `i != j`, all four operations, keeping the
pairs whose `apply` is defined. -/
def operationMoves (numbers : List Int) : List GameMove :=
  (List.range numbers.length).flatMap (fun i =>
    (List.range numbers.length).flatMap (fun j =>
      if i = j then []
      else
        let num1 := numbers.getD i 0
        let num2 := numbers.getD j 0
        allOperations.filterMap (fun op =>
          match op.apply num1 num2 with
          | some _ => some ⟨MoveType.operation, some num1, some num2, some op⟩
          | none => none)))

/-- `CountleEngine.get_valid_moves` body, parametrised by `self.n` and
the effective `numbers` list: rollback moves
`GameMove(ROLLBACK, op1 = i) for i in range(1, self.n - len(numbers))`
followed by the operation moves. -/
def getValidMovesCore (n : Nat) (numbers : List Int) : List GameMove :=
  ((List.range' 1 (n - numbers.length - 1)).map
    (fun i => ⟨MoveType.rollback, some (i : Int), none, none⟩))
  ++ operationMoves numbers

/-- `CountleEngine.get_valid_moves(numbers = None)`. -/
def CountleEngine.get_valid_moves (e : CountleEngine) (numbers : Option (List Int)) :
    List GameMove :=
  getValidMovesCore e.n (numbers.getD e.current_numbers)

/-- The two indexed removals of `execute_operation` step 4: pop the
larger index first to avoid shifting. -/
def removeTwo (l : List Int) (idx1 idx2 : Nat) : List Int :=
  if idx1 > idx2 then (l.eraseIdx idx1).eraseIdx idx2
  else (l.eraseIdx idx2).eraseIdx idx1

/-- `CountleEngine.execute_operation(num1, num2, op_symbol)`.

Embeds engine.py lines 109-199. The Python line

  `idx2 = self.current_numbers.index(num2, start = idx1 + 1)`

passes `start` as a keyword argument; CPython `list.index` accepts only
positional arguments, so whenever `num1 == num2` reaches that line the
call raises `TypeError` (which the surrounding `except ValueError` does
not catch); that uncaught exception is the `.error` branch. All other
outcomes are `.ok (new engine, reward, message)`, the invalid ones
returning the engine unchanged. -/
def CountleEngine.execute_operation (e : CountleEngine) (num1 num2 : Int)
    (op_symbol : String) : Except String (CountleEngine × Int × String) :=
  if e.is_terminal then .ok (e, REWARDS_terminate, "Game is already over!")
  else
    match pyIndex e.current_numbers num1 with
    | none =>
        let nums := e.current_numbers
        .ok (e, REWARDS_invalid, s!"Operands {num1}, {num2} not available in {nums}")
    | some idx1 =>
      if num1 = num2 then
        .error "TypeError: list.index() takes no keyword arguments"
      else
        match pyIndex e.current_numbers num2 with
        | none =>
            let nums := e.current_numbers
            .ok (e, REWARDS_invalid, s!"Operands {num1}, {num2} not available in {nums}")
        | some idx2 =>
          match Operation.from_symbol op_symbol with
          | none => .ok (e, REWARDS_invalid, s!"Invalid operation: {op_symbol}")
          | some operation =>
            match operation.apply num1 num2 with
            | none =>
                let message :=
                  if operation = Operation.subtract then
                    s!"Invalid: {num1} - {num2} would be negative"
                  else if operation = Operation.divide then
                    if num2 = 0 then "Invalid: Cannot divide by zero"
                    else s!"Invalid: {num1} / {num2} is not a whole number"
                  else "Invalid operation"
                .ok (e, REWARDS_invalid, message)
            | some result =>
              let new_numbers := removeTwo e.current_numbers idx1 idx2 ++ [result]
              let move_desc := s!"{num1} {op_symbol} {num2} = {result}"
              let new_state : GameState :=
                { numbers := new_numbers
                  target := e.internal_state.target
                  move_description := some move_desc }
              let e1 : CountleEngine :=
                { e with
                  move_count := e.move_count + 1
                  internal_state := new_state
                  history := e.history ++ [new_state] }
              if result = e.internal_state.target then
                let tgt := e.internal_state.target
                let reward := REWARDS_step + REWARDS_success e
                .ok ({ e1 with won := true, total_reward := e1.total_reward + reward },
                     reward, s!"{move_desc} -> WON! (Reached {tgt})")
              else
                .ok ({ e1 with total_reward := e1.total_reward + REWARDS_step },
                     REWARDS_step, s!"Valid Move: {move_desc}")

/-- `CountleEngine.execute_rollback(step_index)` (engine.py 201-233). -/
def CountleEngine.execute_rollback (e : CountleEngine) (step_index : Int) :
    CountleEngine × Int × String :=
  if step_index < 0 then (e, REWARDS_invalid, "Invalid step index (must be >= 0)")
  else if step_index > (e.history.length : Int) - 1 then
    let mx : Int := (e.history.length : Int) - 1
    (e, REWARDS_invalid, s!"Invalid step index (max: {mx})")
  else
    let k := step_index.toNat
    let steps_to_delete := e.history.length - 1 - k
    let e' : CountleEngine :=
      { e with
        internal_state := e.history.getD k e.internal_state
        history := e.history.take (k + 1)
        won := false
        total_reward := e.total_reward + REWARDS_step
        move_count := e.move_count + 1 }
    (e', REWARDS_step, s!"Rolled back {steps_to_delete} step(s) to step {k}")

/-- `CountleEngine.reset_history`. -/
def CountleEngine.reset_history (e : CountleEngine) : CountleEngine :=
  { e with history := [e.internal_state] }

/-- `CountleEngine.load_state(state, total_reward, move_count)`
(engine.py 363-369): install the state, recompute
`won = (numbers == [target])`, set the counters, reset history. -/
def CountleEngine.load_state (e : CountleEngine) (state : GameState)
    (total_reward : Int) (move_count : Nat) : CountleEngine :=
  CountleEngine.reset_history
    { e with
      internal_state := state
      won := state.numbers == [state.target]
      total_reward := total_reward
      move_count := move_count }

/-- `CountleEngine.create_from_numbers_and_target(numbers, target, seed)`. -/
def CountleEngine.create_from_numbers_and_target (numbers : List Int) (target : Int)
    (seed : Nat) : CountleEngine :=
  (CountleEngine.init numbers.length 0 (pyMax (numbers ++ [target])) seed).load_state
    { numbers := numbers, target := target, move_description := none } 0 0

/-- game/game.py `CountleGame`: thin wrapper holding the engine. -/
structure CountleGame where
  engine : CountleEngine
deriving DecidableEq, Repr

/-- `CountleGame.get_valid_moves(game_state)`: forwards
`game_state.numbers` to the engine accessor. -/
def CountleGame.get_valid_moves (g : CountleGame) (game_state : GameState) :
    List GameMove :=
  g.engine.get_valid_moves (some game_state.numbers)

/-- Canonical search key: Python `tuple(sorted(numbers))`. -/
abbrev Key := List Int

/-- `came_from` map of the BFS and A* solvers:
key -> (parent key or None, move description or None), kept in insertion
order. The keys are sorted number tuples. -/
abbrev CameFrom := List (Key × (Option Key × Option String))

/-- Lookup in a `came_from` dict (keys are lists, not ints). -/
def cameFromLookup (m : CameFrom) (k : Key) : Option (Option Key × Option String) :=
  (m.find? (fun p => p.1 == k)).map (·.2)

/-- Fold a list through an `Except`-valued step, stopping at the first
error (a Python `for` loop whose body may raise). -/
def foldExcept {α β : Type} (f : β → α → Except String β) : β → List α → Except String β
  | b, [] => .ok b
  | b, x :: xs =>
    match f b x with
    | .error e => .error e
    | .ok b' => foldExcept f b' xs

/-- Body of the BFS neighbour loop (solver/bfs.py 69-92) for one move:
skip non-operation moves; apply the operation, rebuild the numbers by
value removal, canonicalise; a key already in `came_from` is discarded,
a fresh key records its parent and is enqueued. The `.error` branches
model the exceptions Python would raise on a malformed move (never hit
from moves produced by `get_valid_moves`). -/
def bfsProcessMove (target : Int) (current : GameState) (cost : Nat)
    (acc : CameFrom × List (Nat × GameState)) (move : GameMove) :
    Except String (CameFrom × List (Nat × GameState)) :=
  if move.move_type ≠ MoveType.operation then .ok acc
  else
    match move.op1, move.op2, move.operation with
    | some a, some b, some op =>
      match op.apply a b with
      | none => .error "TypeError: sorting a list containing None"
      | some result => do
        let n1 ← pyRemove current.numbers a
        let n2 ← pyRemove n1 b
        let new_numbers := n2 ++ [result]
        let key := pySorted new_numbers
        if (cameFromLookup acc.1 key).isSome then .ok acc
        else
          let desc := GameMove.str move ++ " = " ++ toString result
          let new_state : GameState :=
            { numbers := new_numbers, target := target, move_description := none }
          .ok (acc.1 ++ [(key, (some (pySorted current.numbers), some desc))],
               acc.2 ++ [(cost + 1, new_state)])
    | _, _, _ => .error "AttributeError: NoneType operand in operation move"

/-- The BFS main loop (solver/bfs.py 52-92), fuel-indexed: `.ok none`
means the fuel ran out before the Python loop finished (a modelling
artifact only; every theorem below exhibits a run that finishes), and
`.ok (some (found, final, came_from))` is the loop outcome. -/
def bfsLoop (g : CountleGame) (target : Int) :
    Nat → List (Nat × GameState) → CameFrom →
    Except String (Option (Bool × Option Key × CameFrom))
  | 0, _, _ => .ok none
  | _ + 1, [], cf => .ok (some (false, none, cf))
  | fuel + 1, (cost, current) :: rest, cf =>
    if target ∈ current.numbers then .ok (some (true, some (pySorted current.numbers), cf))
    else if current.numbers.length == 1 then bfsLoop g target fuel rest cf
    else
      match foldExcept (bfsProcessMove target current cost) (cf, [])
        (g.get_valid_moves current) with
      | .error e => .error e
      | .ok (cf', adds) => bfsLoop g target fuel (rest ++ adds) cf'

/-- Path reconstruction loop (solver/bfs.py 96-107), fuel-indexed;
returns the path in reverse discovery order (before the final
`append(initial)`/`reverse`). -/
def bfsReconstruct (cf : CameFrom) (target : Int) (startKey : Key) :
    Nat → Key → List GameState → Except String (Option (List GameState))
  | 0, _, _ => .ok none
  | fuel + 1, curr, acc =>
    if curr == startKey then .ok (some acc)
    else
      match cameFromLookup cf curr with
      | none => .error "KeyError: key missing from came_from"
      | some (parent, move_desc) =>
        let st : GameState :=
          { numbers := curr, target := target, move_description := move_desc }
        match parent with
        | none => .error "KeyError: key missing from came_from"
        | some p => bfsReconstruct cf target startKey fuel p (acc ++ [st])

/-- `BFSSolver.solve(initial_state)` (solver/bfs.py 28-115) with an
explicit fuel bound on the two loops. -/
def bfs_solve (g : CountleGame) (fuel : Nat) (initial_state : GameState) :
    Except String (Option (Bool × Option (List GameState))) :=
  let target := initial_state.target
  let startKey := pySorted initial_state.numbers
  match bfsLoop g target fuel [(0, initial_state)] [(startKey, (none, none))] with
  | .error e => .error e
  | .ok none => .ok none
  | .ok (some (false, _, _)) => .ok (some (false, none))
  | .ok (some (true, none, _)) => .ok (some (true, none))
  | .ok (some (true, some fin, cf)) =>
    match bfsReconstruct cf target startKey fuel fin [] with
    | .error e => .error e
    | .ok none => .ok none
    | .ok (some revpath) => .ok (some (true, some ((revpath ++ [initial_state]).reverse)))

/-- solver/astar.py `AStarNode` (the `f`, `g`, state triple). -/
structure AStarNode where
  f : Int
  g : Int
  state : GameState
deriving DecidableEq, Repr

/-- `AStarNode.__lt__`: by `f`, ties broken by lower `g`. -/
def astarNodeLt (x y : AStarNode) : Bool :=
  x.f < y.f || (x.f == y.f && x.g < y.g)

/-- `heappush`: the priority queue is modelled as a list kept sorted by
`AStarNode.__lt__`, so the head is the element `heappop` returns. -/
def heapPush : List AStarNode → AStarNode → List AStarNode
  | [], nd => [nd]
  | x :: xs, nd => if astarNodeLt nd x then nd :: x :: xs else x :: heapPush xs nd

/-- `AStarSolver.heuristic`: the trivial zero heuristic. -/
def heuristic (_numbers : Key) (_target : Int) : Int := 0

/-- The canonical key that processing `move` from `current` would
produce (the `tuple(sorted(new_numbers))` of solver/astar.py line 100);
`none` when the move is malformed. -/
def astarMoveKey (current : GameState) (move : GameMove) : Option Key :=
  match move.op1, move.op2, move.operation with
  | some a, some b, some op =>
    match op.apply a b with
    | none => none
    | some result =>
      match pyRemove current.numbers a with
      | .error _ => none
      | .ok n1 =>
        match pyRemove n1 b with
        | .error _ => none
        | .ok n2 => some (pySorted (n2 ++ [result]))
  | _, _, _ => none

/-- Body of the A* neighbour loop (solver/astar.py 89-119) for one move:
skip non-operation moves; compute the successor and its canonical key;
line 102 `if new_numbers_tuple not in came_from` admits only keys that
were never seen — a rediscovered key is dropped without comparing path
costs, without touching `came_from` and without a `heappush`. -/
def astarProcessMove (target : Int) (current : GameState) (g : Int)
    (acc : CameFrom × List AStarNode) (move : GameMove) :
    Except String (CameFrom × List AStarNode) :=
  if move.move_type ≠ MoveType.operation then .ok acc
  else
    match move.op1, move.op2, move.operation with
    | some a, some b, some op =>
      match op.apply a b with
      | none => .error "TypeError: sorting a list containing None"
      | some result =>
        match pyRemove current.numbers a with
        | .error err => .error err
        | .ok n1 =>
          match pyRemove n1 b with
          | .error err => .error err
          | .ok n2 =>
            let new_numbers := n2 ++ [result]
            let new_numbers_tuple := pySorted new_numbers
            if (cameFromLookup acc.1 new_numbers_tuple).isSome then .ok acc
            else
              let desc := GameMove.str move ++ " = " ++ toString result
              let new_state : GameState :=
                { numbers := new_numbers, target := target, move_description := none }
              let new_g := g + 1
              let new_h := heuristic new_numbers_tuple target
              let new_f := new_g + new_h
              .ok (acc.1 ++ [(new_numbers_tuple, (some (pySorted current.numbers), some desc))],
                   heapPush acc.2 ⟨new_f, new_g, new_state⟩)
    | _, _, _ => .error "AttributeError: NoneType operand in operation move"

/-- The A* main loop (solver/astar.py 71-119), fuel-indexed like
`bfsLoop`. -/
def astarLoop (g : CountleGame) (target : Int) :
    Nat → List AStarNode → CameFrom →
    Except String (Option (Bool × Option Key × CameFrom))
  | 0, _, _ => .ok none
  | _ + 1, [], cf => .ok (some (false, none, cf))
  | fuel + 1, nd :: rest, cf =>
    if target ∈ nd.state.numbers then
      .ok (some (true, some (pySorted nd.state.numbers), cf))
    else if nd.state.numbers.length == 1 then astarLoop g target fuel rest cf
    else
      match foldExcept (astarProcessMove target nd.state nd.g) (cf, rest)
        (g.get_valid_moves nd.state) with
      | .error e => .error e
      | .ok (cf', pq') => astarLoop g target fuel pq' cf'

/-- The `approx_closure` update of `CountleEngine.generate_target`
(engine.py 324-326), verbatim:

  `if result < approx_closure.get(result, float('inf')):`
  `    approx_closure[result] = step + 1`

The guard compares the produced value `result` with the stored entry
(`result < float('inf')` being always true when the key is absent). -/
def approxClosureUpdate (approx_closure : List (Int × Nat)) (result : Int)
    (step : Nat) : List (Int × Nat) :=
  match assocLookup approx_closure result with
  | none => approx_closure ++ [(result, step + 1)]
  | some s => if result < (s : Int) then assocSet approx_closure result (step + 1)
              else approx_closure

/-- One Monte-Carlo playout of `generate_target` (engine.py 306-326):
up to `n - 1` steps, each picking a random operation move from
`get_valid_moves(temp_numbers)`, applying it by value removal and
recording the result in `approx_closure`. The `howtomake` dict
(engine.py 300, 320-322) is bookkeeping that the returned target never
reads and is omitted. The `.error` branches model the
`IndexError` of `rng.choice` on an empty list and the line 314 assert. -/
def mcPlayoutSteps (n : Nat) : List Nat → List Int → PyRandom → List (Int × Nat) →
    Except String (PyRandom × List (Int × Nat))
  | [], _, rng, ac => .ok (rng, ac)
  | step :: rest, temp_numbers, rng, ac =>
    let valid_moves := getValidMovesCore n temp_numbers
    if valid_moves.isEmpty then .ok (rng, ac)
    else do
      let ops := valid_moves.filter (fun m => m.move_type == MoveType.operation)
      let (move, rng') ← PyRandom.choice rng ops
      match move.applyResult with
      | none => .error "AssertionError: Generated invalid result in closure computation"
      | some result =>
        if result < 0 then
          .error "AssertionError: Generated invalid result in closure computation"
        else do
          let t1 ← pyRemove temp_numbers (move.op1.getD 0)
          let t2 ← pyRemove t1 (move.op2.getD 0)
          mcPlayoutSteps n rest (t2 ++ [result]) rng' (approxClosureUpdate ac result step)

/-- The outer `for _ in range(max_mc_steps)` loop of `generate_target`:
each playout restarts from the initial numbers, sharing the rng and the
`approx_closure` across playouts. -/
def mcPlayouts (n : Nat) (numbers : List Int) : Nat → PyRandom → List (Int × Nat) →
    Except String (PyRandom × List (Int × Nat))
  | 0, rng, ac => .ok (rng, ac)
  | k + 1, rng, ac => do
    let (rng', ac') ← mcPlayoutSteps n (List.range (n - 1)) numbers rng ac
    mcPlayouts n numbers k rng' ac'

/-- `CountleEngine.generate_target(numbers, max_mc_steps)`
(engine.py 285-331): seed `approx_closure` with the starting numbers at
step 0, run the playouts, keep the values whose recorded step lies in
`[min_moves, n)`, drop values already among the starting numbers, and
pick one at random (the `IndexError` on an empty candidate pool is the
`.error` branch of `choice`). -/
def CountleEngine.generate_target (e : CountleEngine) (numbers : List Int)
    (max_mc_steps : Nat) : Except String (Int × CountleEngine) := do
  let seeded := numbers.foldl (fun m x => dictInsert m x 0) []
  let (rng', ac) ← mcPlayouts e.n numbers max_mc_steps e.rng seeded
  let candidates := (ac.filter
    (fun p => decide (e.min_moves ≤ p.2) && decide (p.2 < e.n))).map (·.1)
  let pool := (dedupFirst candidates).filter (fun v => !(numbers.contains v))
  let (tgt, rng'') ← PyRandom.choice rng' pool
  .ok (tgt, { e with rng := rng'' })

/-- The `n` draws `self.rng.randint(1, self.max_number)` of
`generate_level`, in order. -/
def drawNumbers : Nat → Int → PyRandom → List Int × PyRandom
  | 0, _, rng => ([], rng)
  | k + 1, mx, rng =>
    let (v, rng') := PyRandom.randint rng 1 mx
    let (vs, rng'') := drawNumbers k mx rng'
    (v :: vs, rng'')

/-- `CountleEngine.generate_level()` (engine.py 333-349): draw the
starting numbers, generate the target, install the fresh state. -/
def CountleEngine.generate_level (e : CountleEngine) :
    Except String (GameState × CountleEngine) := do
  let (numbers, rng') := drawNumbers e.n e.max_number e.rng
  let (target, e') ← CountleEngine.generate_target { e with rng := rng' } numbers 1000
  let st : GameState := { numbers := numbers, target := target, move_description := none }
  .ok (st, { e' with internal_state := st })

/-- Run a list of `execute_operation` calls, requiring each to be
accepted (an accepted call is exactly one that increments `move_count`:
the terminal and invalid outcomes leave it unchanged, the crash is an
error). `none` when some call is rejected or crashes. -/
def runAcceptedOps (e : CountleEngine) : List (Int × Int × String) → Option CountleEngine
  | [] => some e
  | (num1, num2, sym) :: rest =>
    match e.execute_operation num1 num2 sym with
    | .error _ => none
    | .ok (e', _, _) =>
      if e'.move_count = e.move_count + 1 then runAcceptedOps e' rest else none

/-! Concrete instances exercised by the claims. -/

/-- Engine for spec scenario 1: numbers `[5, 5]`, target `10`. -/
def engineC1 : CountleEngine := CountleEngine.create_from_numbers_and_target [5, 5] 10 42

/-- Engine for spec scenario 2: numbers `[4, 2]`, target `9`. -/
def engineC4 : CountleEngine := CountleEngine.create_from_numbers_and_target [4, 2] 9 42

/-- Engine with numbers `[5, 3]`, target `8`, used to exercise the
rejection branches of `execute_operation` / `execute_rollback`. -/
def engineC6 : CountleEngine := CountleEngine.create_from_numbers_and_target [5, 3] 8 42

/-- Engine with numbers `[8, 2, 5]` and (unreachable-in-one-move)
target `100`, used for the rollback round trip. -/
def engineC7 : CountleEngine :=
  CountleEngine.create_from_numbers_and_target [8, 2, 5] 100 42

/-- `engineC7` after the accepted move `8 + 2 = 10`: numbers `[5, 10]`,
history of length 2 (index 0 the start, index 1 the current state). -/
def engineAfterOneOp : CountleEngine :=
  (runAcceptedOps engineC7 [(8, 2, "+")]).getD engineC7

/-- Engine with all-non-negative numbers `[2, 3]`, used to witness the
non-negativity invariant. -/
def engineC8 : CountleEngine := CountleEngine.create_from_numbers_and_target [2, 3] 9 42

/-- An engine shape with `n = 4`, two operation moves already played
(history length 3, current numbers `[9, 7]`), used to witness the
rollback-move enumeration. -/
def engineC5W : CountleEngine :=
  (runAcceptedOps (CountleEngine.create_from_numbers_and_target [1, 2, 4, 9] 100 42)
    [(1, 2, "+"), (3, 4, "+")]).getD engineC7

/-- A `came_from` map in which the canonical key `[4]` was already
discovered (by `2 + 2 = 4` from `[2, 2]`, a path of cost `g = 5` in the
scenario of claim C3; the map itself stores no `g`, which is the point:
the code keeps no cost to relax against). -/
def cameFromC3 : CameFrom := [([4], (some [2, 2], some "2 + 2 = 4"))]

/-- The state from which the key `[4]` is rediscovered in claim C3. -/
def stateC3 : GameState := { numbers := [1, 3], target := 9, move_description := none }

/-- The move `1 + 3` whose result rediscovers the key `[4]` with
path cost `g + 1 = 1`. -/
def moveC3 : GameMove :=
  { move_type := MoveType.operation, op1 := some 1, op2 := some 3,
    operation := some Operation.add }



/-! Theorems settling the claims. -/

/-- C1. The spec asserts that on numbers `[5, 5]` with target `10`,
`execute_operation(5, 5, '+')` resolves a second distinct occurrence of
`5` and wins with reward `-1 + success_bonus(2) = 1`. The code instead
raises `TypeError` at engine.py line 129: `current_numbers.index(num2,
start = idx1 + 1)` passes `start` as a keyword argument, which CPython
`list.index` (positional-only) rejects, and the surrounding
`except ValueError` does not catch `TypeError`. Every `num1 == num2`
call dies on that line. -/
theorem claim1_duplicate_operand_crashes :
    engineC1.execute_operation 5 5 "+"
      = Except.error "TypeError: list.index() takes no keyword arguments" := by
  rfl

/-- C2. The spec asserts `approx_closure` records the smallest step
index at which each value has been observed so far. The update guard at
engine.py line 325 is `result < approx_closure.get(result, inf)` — it
compares the produced VALUE with the stored STEP. Two refutations on the
embedded update: the value `0` first observed at step index 0 (stored
`1`) and re-observed at step index 4 is overwritten with the LARGER
entry `5`; the value `3` first observed at step index 2 (stored `3`)
and re-observed at step index 0 keeps `3` instead of the smaller `1`. -/
theorem claim2_closure_update_not_minimal :
    approxClosureUpdate (approxClosureUpdate [] 0 0) 0 4 = [(0, 5)] ∧
    approxClosureUpdate (approxClosureUpdate [] 3 2) 3 0 = [(3, 3)] := by
  exact ⟨rfl, rfl⟩

/-- C3 (counterexample). The claim says a canonical key rediscovered
with strictly lower `g` updates `came_from` and is re-enqueued. Here the
key `[4]` is already in `came_from` (recorded from a discovery of cost
`g = 5`), and it is rediscovered from state `[1, 3]` at `g = 0` via
`1 + 3 = 4`, i.e. with new cost `1 < 5`; yet the neighbour-processing
step of solver/astar.py line 102 returns `came_from` unchanged and
pushes nothing onto the empty queue — the opposite of what the claim
requires at this input. -/
theorem claim3_counterexample :
    astarProcessMove 9 stateC3 0 (cameFromC3, []) moveC3
      = Except.ok (cameFromC3, ([] : List AStarNode)) := by
  rfl

/-- C4 (counterexample). The claim (spec scenario 2) says
`get_valid_moves` on numbers `[4, 2]` returns exactly 4 operation
moves. The engine enumerates ordered pairs, so both `(4, 2)` (four
defined operations) and `(2, 4)` (addition and multiplication) are
emitted: 6 operation moves, not 4. -/
theorem claim4_counterexample :
    ((engineC4.get_valid_moves none).filter
        (fun m => m.move_type == MoveType.operation)).length = 6 ∧
    ((engineC4.get_valid_moves none).filter
        (fun m => m.move_type == MoveType.operation)).length ≠ 4 := by
  exact ⟨rfl, by decide⟩

/-- C4 (amended). On numbers `[4, 2]` with target `9`,
`get_valid_moves` returns exactly 6 operation moves (and no rollback
moves), and BFS `solve` terminates with `success = false` and a `None`
path: no single operation on 4 and 2 yields 9. -/
theorem claim4_amended_six_moves_and_bfs_fails :
    ((engineC4.get_valid_moves none).filter
        (fun m => m.move_type == MoveType.operation)).length = 6 ∧
    (engineC4.get_valid_moves none).length = 6 ∧
    bfs_solve ⟨engineC4⟩ 10 engineC4.internal_state
      = Except.ok (some (false, none)) := by
  exact ⟨rfl, rfl, rfl⟩

/-- C5 (counterexample). In engine mode with `n = 3`, one accepted
operation move played (history holds index 0, the start, and index 1,
the current state), index 0 is a valid prior step index — yet
`get_valid_moves` emits no rollback move at all: the enumeration
`range(1, self.n - len(numbers))` is `range(1, 1)`, empty, so
`Rollback(0)` is never offered, contradicting "a Rollback(k) move for
every valid prior step index". -/
theorem claim5_counterexample :
    engineAfterOneOp.history.length = 2 ∧
    (engineAfterOneOp.get_valid_moves none).filter
        (fun m => m.move_type == MoveType.rollback) = [] := by
  exact ⟨rfl, rfl⟩

/-- C6. The spec asserts every rejected move returns reward `-1` with a
message and leaves the engine unchanged. That holds of the
distinct-operand unavailable, unknown-symbol, arithmetic-rule and
rollback-range rejections (each returns the engine bit-for-bit
unchanged with reward `-1`), but a duplicate-operand request
(`num1 == num2`, here with only one occurrence of `5` available) is an
"unavailable operands" rejection that raises `TypeError` instead of
returning the invalid outcome — the same engine.py line 129 keyword
bug as claim C1. -/
theorem claim6_rejections :
    engineC6.execute_operation 5 5 "+"
      = Except.error "TypeError: list.index() takes no keyword arguments" ∧
    engineC6.execute_operation 7 3 "+"
      = Except.ok (engineC6, -1, "Operands 7, 3 not available in [5, 3]") ∧
    engineC6.execute_operation 5 3 "%"
      = Except.ok (engineC6, -1, "Invalid operation: %") ∧
    engineC6.execute_operation 3 5 "-"
      = Except.ok (engineC6, -1, "Invalid: 3 - 5 would be negative") ∧
    engineC6.execute_operation 5 3 "/"
      = Except.ok (engineC6, -1, "Invalid: 5 / 3 is not a whole number") ∧
    engineC6.execute_rollback 5
      = (engineC6, -1, "Invalid step index (max: 0)") ∧
    engineC6.execute_rollback (-1)
      = (engineC6, -1, "Invalid step index (must be >= 0)") := by
  exact ⟨rfl, rfl, rfl, rfl, rfl, rfl, rfl⟩

/-- C9. Determinism of level generation: two engines constructed with
the same `(num_numbers, min_moves, max_number)` parameters and the same
seed produce identical `generate_level` results. The engine draws all
randomness from `self.rng = random.Random(seed)` (modelled by the
explicitly threaded `PyRandom` state) and reads nothing else, so the
generated numbers and Monte-Carlo target coincide run for run. -/
theorem claim9_determinism (num_numbers min_moves : Nat) (max_number : Int)
    (seed₁ seed₂ : Nat) (h : seed₁ = seed₂) :
    (CountleEngine.init num_numbers min_moves max_number seed₁).generate_level
      = (CountleEngine.init num_numbers min_moves max_number seed₂).generate_level := by
  rw [h]

/-- Witness for C9 at the default CLI parameters `n = 6`,
`min_moves = 3`, `max_number = 20`, `seed = 42`. -/
theorem claim9_witness :
    (CountleEngine.init 6 3 20 42).generate_level
      = (CountleEngine.init 6 3 20 42).generate_level :=
  claim9_determinism 6 3 20 42 42 rfl

/-- C10. After `load_state`, `won` is true exactly when the loaded
numbers are the one-element list `[target]` (engine.py line 366); and a
won engine is immediately terminal. Consequently a multi-number state
merely containing the target does not set `won`. -/
theorem claim10_load_state_won (e : CountleEngine) (s : GameState)
    (total_reward : Int) (move_count : Nat) :
    ((e.load_state s total_reward move_count).won = true ↔ s.numbers = [s.target]) ∧
    ((e.load_state s total_reward move_count).won = true →
      (e.load_state s total_reward move_count).is_terminal = true) := by
  constructor
  · simp [CountleEngine.load_state, CountleEngine.reset_history]
  · intro hw
    simp [CountleEngine.is_terminal, hw]

/-- Witness for C10: loading the single-number state `[7]` with target
`7` makes the engine won and terminal. -/
theorem claim10_witness :
    ((CountleEngine.init 2 0 10 42).load_state
        { numbers := [7], target := 7, move_description := none } 0 0).won = true ∧
    ((CountleEngine.init 2 0 10 42).load_state
        { numbers := [7], target := 7, move_description := none } 0 0).is_terminal
      = true := by
  have h := claim10_load_state_won (CountleEngine.init 2 0 10 42)
    { numbers := [7], target := 7, move_description := none } 0 0
  exact ⟨h.1.mpr rfl, h.2 (h.1.mpr rfl)⟩

/-- Every move produced by the operation enumeration is an operation
move. -/
theorem operationMoves_move_type (numbers : List Int) :
    ∀ m ∈ operationMoves numbers, m.move_type = MoveType.operation := by
  intro m hm
  simp only [operationMoves, List.mem_flatMap] at hm
  obtain ⟨i, _, j, _, hm⟩ := hm
  by_cases hij : i = j
  · simp [hij] at hm
  · simp only [if_neg hij, List.mem_filterMap] at hm
    obtain ⟨op, _, hop⟩ := hm
    rcases h : Operation.apply op (numbers.getD i 0) (numbers.getD j 0) with _ | r <;>
      rw [h] at hop
    · cases hop
    · cases hop
      rfl

/-- C5 (amended). In engine mode `get_valid_moves` emits rollback moves
for exactly the step indices `1 .. len(history) - 2`: the current
index (`len(history) - 1`) is not offered, and neither is index 0, so
the initial state can only be recovered by calling `execute_rollback(0)`
directly. (Stated for engines satisfying the history-length invariant
`len(history) + len(numbers) = n + 1`, which every engine reached from a
loaded state by accepted moves and rollbacks satisfies.) -/
theorem claim5_amended_rollback_enumeration (e : CountleEngine)
    (h : e.history.length + e.current_numbers.length = e.n + 1) :
    (e.get_valid_moves none).filter (fun m => m.move_type == MoveType.rollback)
      = (List.range' 1 (e.history.length - 2)).map
          (fun i => ⟨MoveType.rollback, some (i : Int), none, none⟩) := by
  have hcount : e.n - e.current_numbers.length - 1 = e.history.length - 2 := by omega
  simp only [CountleEngine.get_valid_moves, Option.getD, getValidMovesCore]
  rw [List.filter_append, List.filter_map]
  have h1 : (List.filter
      ((fun m => m.move_type == MoveType.rollback) ∘
        (fun i : Nat => (⟨MoveType.rollback, some (i : Int), none, none⟩ : GameMove)))
      (List.range' 1 (e.n - e.current_numbers.length - 1)))
      = List.range' 1 (e.n - e.current_numbers.length - 1) := by
    apply List.filter_eq_self.mpr
    intro a _
    rfl
  have h2 : (operationMoves e.current_numbers).filter
      (fun m => m.move_type == MoveType.rollback) = [] := by
    apply List.filter_eq_nil_iff.mpr
    intro m hm
    have := operationMoves_move_type e.current_numbers m hm
    simp [this]
  rw [h1, h2, hcount, List.append_nil]

/-- Witness for C5 (amended): an engine with `n = 4` and two accepted
moves played (history length 3) offers exactly the rollback move to
index 1. -/
theorem claim5_witness :
    engineC5W.history.length + engineC5W.current_numbers.length = engineC5W.n + 1 ∧
    (engineC5W.get_valid_moves none).filter
        (fun m => m.move_type == MoveType.rollback)
      = [⟨MoveType.rollback, some 1, none, none⟩] := by
  refine ⟨by rfl, ?_⟩
  have h := claim5_amended_rollback_enumeration engineC5W (by rfl)
  rw [h]
  rfl

/-- C3 (amended). The A* solver performs no duplicate-key relaxation at
all: whenever the canonical key produced by processing an operation move
is already present in `came_from` — with any path cost, lower, equal or
higher — the neighbour-processing step of solver/astar.py lines 89-119
leaves `came_from` untouched and enqueues nothing (first-writer-wins,
as spec section 4.2 prescribes). No `g` value is stored in `came_from`
for a relaxation to compare against. -/
theorem claim3_amended_rediscoveries_discarded (target : Int) (current : GameState)
    (g : Int) (cf : CameFrom) (pq : List AStarNode) (move : GameMove) (k : Key)
    (hmt : move.move_type = MoveType.operation)
    (hkey : astarMoveKey current move = some k)
    (hmem : (cameFromLookup cf k).isSome = true) :
    astarProcessMove target current g (cf, pq) move = Except.ok (cf, pq) := by
  obtain ⟨mt, o1, o2, oop⟩ := move
  simp only at hmt
  subst hmt
  simp only [astarMoveKey] at hkey
  rcases o1 with _ | a
  · cases hkey
  rcases o2 with _ | b
  · cases hkey
  rcases oop with _ | op
  · cases hkey
  rcases hab : op.apply a b with _ | result
  · simp [hab] at hkey
  rcases hr1 : pyRemove current.numbers a with err1 | n1
  · simp [hab, hr1] at hkey
  rcases hr2 : pyRemove n1 b with err2 | n2
  · simp [hab, hr1, hr2] at hkey
  simp only [hab, hr1, hr2, Option.some.injEq] at hkey
  subst hkey
  simp [astarProcessMove, hab, hr1, hr2, hmem]

/-- Witness for C3 (amended), at the concrete rediscovery scenario of
the counterexample. -/
theorem claim3_witness :
    moveC3.move_type = MoveType.operation ∧
    astarMoveKey stateC3 moveC3 = some [4] ∧
    (cameFromLookup cameFromC3 [4]).isSome = true ∧
    astarProcessMove 9 stateC3 0 (cameFromC3, []) moveC3
      = Except.ok (cameFromC3, ([] : List AStarNode)) := by
  refine ⟨rfl, rfl, rfl, ?_⟩
  exact claim3_amended_rediscoveries_discarded 9 stateC3 0 cameFromC3 [] moveC3 [4]
    rfl rfl rfl

/-- A successful `pyIndex` lookup certifies membership. -/
theorem pyIndex_mem {l : List Int} {x : Int} {i : Nat}
    (h : pyIndex l x = some i) : x ∈ l := by
  induction l generalizing i with
  | nil => cases h
  | cons y ys ih =>
    by_cases hyx : y = x
    · simp [hyx]
    · simp only [pyIndex, if_neg hyx] at h
      rcases hrec : pyIndex ys x with _ | j
      · rw [hrec] at h
        cases h
      · exact List.mem_cons_of_mem y (ih hrec)

/-- Case analysis on a non-crashing `execute_operation` call: either the
move was rejected (terminal, or one of the invalid outcomes) and the
engine is returned unchanged, or the move was accepted and the resulting
engine is the step-4 update: both located operands removed, the result
appended, the new state appended to history, the target preserved, and
the move counter incremented (the accepted case is exactly the one that
increments it). -/
theorem execute_operation_ok {e e' : CountleEngine} {num1 num2 : Int} {sym : String}
    {r : Int} {msg : String}
    (h : e.execute_operation num1 num2 sym = Except.ok (e', r, msg)) :
    (e' = e ∧ e'.move_count = e.move_count) ∨
    ∃ (idx1 idx2 : Nat) (op : Operation) (result : Int),
      pyIndex e.current_numbers num1 = some idx1 ∧
      pyIndex e.current_numbers num2 = some idx2 ∧
      Operation.apply op num1 num2 = some result ∧
      e'.current_numbers = removeTwo e.current_numbers idx1 idx2 ++ [result] ∧
      e'.history = e.history ++ [e'.internal_state] ∧
      e'.internal_state.target = e.internal_state.target ∧
      e'.move_count = e.move_count + 1 := by
  rw [CountleEngine.execute_operation] at h
  by_cases ht : e.is_terminal
  · rw [if_pos ht] at h
    simp only [Except.ok.injEq, Prod.mk.injEq] at h
    exact Or.inl ⟨h.1.symm, by rw [← h.1]⟩
  · rw [if_neg ht] at h
    rcases hidx1 : pyIndex e.current_numbers num1 with _ | idx1
    · simp only [hidx1, Except.ok.injEq, Prod.mk.injEq] at h
      exact Or.inl ⟨h.1.symm, by rw [← h.1]⟩
    · simp only [hidx1] at h
      by_cases hdup : num1 = num2
      · simp [hdup] at h
      · rw [if_neg hdup] at h
        rcases hidx2 : pyIndex e.current_numbers num2 with _ | idx2
        · simp only [hidx2, Except.ok.injEq, Prod.mk.injEq] at h
          exact Or.inl ⟨h.1.symm, by rw [← h.1]⟩
        · simp only [hidx2] at h
          rcases hsym : Operation.from_symbol sym with _ | op
          · simp only [hsym, Except.ok.injEq, Prod.mk.injEq] at h
            exact Or.inl ⟨h.1.symm, by rw [← h.1]⟩
          · simp only [hsym] at h
            rcases happ : Operation.apply op num1 num2 with _ | result
            · simp only [happ, Except.ok.injEq, Prod.mk.injEq] at h
              exact Or.inl ⟨h.1.symm, by rw [← h.1]⟩
            · simp only [happ] at h
              refine Or.inr ⟨idx1, idx2, op, result, rfl, rfl, happ, ?_⟩
              by_cases hres : result = e.internal_state.target
              · rw [if_pos hres] at h
                simp only [Except.ok.injEq, Prod.mk.injEq] at h
                rw [← h.1]
                refine ⟨rfl, rfl, rfl, rfl⟩
              · rw [if_neg hres] at h
                simp only [Except.ok.injEq, Prod.mk.injEq] at h
                rw [← h.1]
                refine ⟨rfl, rfl, rfl, rfl⟩

/-- A run of accepted operations only ever appends to the history. -/
theorem runAcceptedOps_history {e e' : CountleEngine} {ops : List (Int × Int × String)}
    (h : runAcceptedOps e ops = some e') :
    ∃ t : List GameState, e'.history = e.history ++ t := by
  induction ops generalizing e with
  | nil =>
    simp only [runAcceptedOps, Option.some.injEq] at h
    exact ⟨[], by rw [← h, List.append_nil]⟩
  | cons p rest ih =>
    obtain ⟨num1, num2, sym⟩ := p
    simp only [runAcceptedOps] at h
    rcases hop : e.execute_operation num1 num2 sym with err | trip
    · simp only [hop] at h
      cases h
    · obtain ⟨e1, r, msg⟩ := trip
      simp only [hop] at h
      by_cases hmc : e1.move_count = e.move_count + 1
      · rw [if_pos hmc] at h
        obtain ⟨t, ht⟩ := ih h
        rcases execute_operation_ok hop with ⟨heq, hmc0⟩ | hstep
        · exfalso
          rw [heq] at hmc
          omega
        · obtain ⟨_, _, _, _, _, _, _, _, hhist, _, _⟩ := hstep
          exact ⟨e1.internal_state :: t, by rw [ht, hhist, List.append_assoc]; rfl⟩
      · rw [if_neg hmc] at h
        cases h

/-- C7. Round-trip rollback: from a freshly loaded engine (history is
exactly the current state) with at least two numbers, any sequence of
`k >= 1` accepted operation moves followed by `execute_rollback(0)`
restores the current numbers and the target to those of the initial
state, leaves the history at length 1, and leaves both `won` and
`is_terminal` false. -/
theorem claim7_rollback_roundtrip (e : CountleEngine)
    (ops : List (Int × Int × String)) (e' : CountleEngine)
    (hh : e.history = [e.internal_state])
    (hn : 2 ≤ e.internal_state.numbers.length)
    (_hk : 1 ≤ ops.length)
    (hr : runAcceptedOps e ops = some e') :
    (e'.execute_rollback 0).1.current_numbers = e.internal_state.numbers ∧
    (e'.execute_rollback 0).1.target = e.internal_state.target ∧
    (e'.execute_rollback 0).1.history.length = 1 ∧
    (e'.execute_rollback 0).1.won = false ∧
    (e'.execute_rollback 0).1.is_terminal = false := by
  obtain ⟨t, ht⟩ := runAcceptedOps_history hr
  rw [hh] at ht
  have hlen : 1 ≤ e'.history.length := by
    rw [ht]
    simp
  have h0 : ¬ ((0 : Int) < 0) := by omega
  have h1 : ¬ ((0 : Int) > (e'.history.length : Int) - 1) := by
    have : (1 : Int) ≤ (e'.history.length : Int) := by exact_mod_cast hlen
    omega
  simp only [CountleEngine.execute_rollback, if_neg h0, if_neg h1]
  have hget : e'.history[0]? = some e.internal_state := by
    rw [ht]
    simp
  have hne : e.internal_state.numbers.length ≠ 1 := by omega
  refine ⟨?_, ?_, ?_, ?_, ?_⟩
  · simp [CountleEngine.current_numbers, List.getD, hget]
  · simp [CountleEngine.target, List.getD, hget]
  · rw [ht]
    simp
  · trivial
  · simp [CountleEngine.is_terminal, CountleEngine.current_numbers, List.getD, hget, hne]

/-- Witness for C7: `[8, 2, 5]` (target 100), one accepted move
`8 + 2 = 10`, then `execute_rollback(0)`. -/
theorem claim7_witness :
    (engineC7.history = [engineC7.internal_state] ∧
     2 ≤ engineC7.internal_state.numbers.length ∧
     1 ≤ ([((8 : Int), (2 : Int), "+")]).length ∧
     runAcceptedOps engineC7 [(8, 2, "+")] = some engineAfterOneOp) ∧
    (engineAfterOneOp.execute_rollback 0).1.current_numbers = [8, 2, 5] ∧
    (engineAfterOneOp.execute_rollback 0).1.target = 100 ∧
    (engineAfterOneOp.execute_rollback 0).1.history.length = 1 ∧
    (engineAfterOneOp.execute_rollback 0).1.won = false ∧
    (engineAfterOneOp.execute_rollback 0).1.is_terminal = false := by
  have h := claim7_rollback_roundtrip engineC7 [(8, 2, "+")] engineAfterOneOp rfl
    (by decide) (by decide) rfl
  exact ⟨⟨rfl, by decide, by decide, rfl⟩, h.1.trans rfl, h.2.1.trans rfl,
    h.2.2.1, h.2.2.2.1, h.2.2.2.2⟩

/-- Both indexed removals keep only elements of the original list. -/
theorem removeTwo_subset (l : List Int) (i j : Nat) :
    ∀ x ∈ removeTwo l i j, x ∈ l := by
  intro x hx
  rw [removeTwo] at hx
  by_cases hij : i > j
  · rw [if_pos hij] at hx
    exact List.eraseIdx_subset _ _ (List.eraseIdx_subset _ _ hx)
  · rw [if_neg hij] at hx
    exact List.eraseIdx_subset _ _ (List.eraseIdx_subset _ _ hx)

/-- `Operation.apply` never produces a negative result from non-negative
operands (and by its `Option Int` type it never produces a non-integer:
subtraction is undefined when it would go negative, division when it is
inexact or by zero). -/
theorem apply_nonneg (op : Operation) (a b r : Int) (ha : 0 ≤ a) (hb : 0 ≤ b)
    (h : Operation.apply op a b = some r) : 0 ≤ r := by
  cases op with
  | add =>
    simp only [Operation.apply, Option.some.injEq] at h
    omega
  | subtract =>
    simp only [Operation.apply] at h
    split at h
    · simp only [Option.some.injEq] at h
      omega
    · cases h
  | multiply =>
    simp only [Operation.apply, Option.some.injEq] at h
    rw [← h]
    exact mul_nonneg ha hb
  | divide =>
    simp only [Operation.apply] at h
    split at h
    · simp only [Option.some.injEq] at h
      rw [← h]
      exact Int.fdiv_nonneg ha hb
    · cases h

/-- Accepted operations preserve non-negativity of the number list. -/
theorem runAcceptedOps_nonneg (e e' : CountleEngine) (ops : List (Int × Int × String))
    (hnn : ∀ x ∈ e.current_numbers, 0 ≤ x)
    (h : runAcceptedOps e ops = some e') :
    ∀ x ∈ e'.current_numbers, 0 ≤ x := by
  induction ops generalizing e with
  | nil =>
    simp only [runAcceptedOps, Option.some.injEq] at h
    rw [← h]
    exact hnn
  | cons p rest ih =>
    obtain ⟨num1, num2, sym⟩ := p
    simp only [runAcceptedOps] at h
    rcases hop : e.execute_operation num1 num2 sym with err | trip
    · simp only [hop] at h
      cases h
    · obtain ⟨e1, r, msg⟩ := trip
      simp only [hop] at h
      by_cases hmc : e1.move_count = e.move_count + 1
      · rw [if_pos hmc] at h
        refine ih e1 ?_ h
        rcases execute_operation_ok hop with ⟨heq, _⟩ | hstep
        · rw [heq]
          exact hnn
        · obtain ⟨idx1, idx2, op, result, hidx1, hidx2, happ, hnums, _, _, _⟩ := hstep
          intro x hx
          rw [hnums] at hx
          rcases List.mem_append.mp hx with hx | hx
          · exact hnn x (removeTwo_subset _ _ _ x hx)
          · have hxr : x = result := by
              cases hx with
              | head => rfl
              | tail _ hfalse => cases hfalse
            rw [hxr]
            exact apply_nonneg op num1 num2 result
              (hnn num1 (pyIndex_mem hidx1)) (hnn num2 (pyIndex_mem hidx2)) happ
      · rw [if_neg hmc] at h
        cases h

/-- C8. Non-negativity invariant: `Operation.apply` maps non-negative
operands to a non-negative result whenever it is defined (first
conjunct), and every engine state reached from an all-non-negative
state by a sequence of accepted operation moves is again
all-non-negative (second conjunct). -/
theorem claim8_nonneg_invariant :
    (∀ (op : Operation) (a b r : Int), 0 ≤ a → 0 ≤ b →
        Operation.apply op a b = some r → 0 ≤ r) ∧
    (∀ (e e' : CountleEngine) (ops : List (Int × Int × String)),
        (∀ x ∈ e.current_numbers, 0 ≤ x) →
        runAcceptedOps e ops = some e' →
        ∀ x ∈ e'.current_numbers, 0 ≤ x) :=
  ⟨apply_nonneg, runAcceptedOps_nonneg⟩

/-- Witness for C8: `7 / 7 = 1` is non-negative, and the engine on
`[2, 3]` stays non-negative after the accepted move `2 + 3 = 5`. -/
theorem claim8_witness :
    (Operation.apply Operation.divide 7 7 = some 1 ∧ 0 ≤ (1 : Int)) ∧
    ((∀ x ∈ engineC8.current_numbers, 0 ≤ x) ∧
     runAcceptedOps engineC8 [(2, 3, "+")]
       = some ((runAcceptedOps engineC8 [(2, 3, "+")]).getD engineC8) ∧
     ∀ x ∈ ((runAcceptedOps engineC8 [(2, 3, "+")]).getD engineC8).current_numbers,
       0 ≤ x) := by
  refine ⟨⟨by decide, claim8_nonneg_invariant.1 Operation.divide 7 7 1
      (by decide) (by decide) (by decide)⟩, ⟨by decide, rfl, ?_⟩⟩
  exact claim8_nonneg_invariant.2 engineC8
    ((runAcceptedOps engineC8 [(2, 3, "+")]).getD engineC8) [(2, 3, "+")]
    (by decide) rfl
